import Mathlib

/-!
Verification of the MOBIX travel-planning client, shallowly embedded in Lean.

The embedding covers the client-side card-parsing and local persistence
subsystem of the repository: the card parser and chat-session logic of
ui-chat/js/chat.js, the note store and classifier of ui-chat/js/travelnote.js,
and the itinerary save logic of the planner module.  JavaScript strings are
modelled as List Char, JS objects as Lean structures, localStorage as explicit
state records, and ISO timestamps as Nat (order-isomorphic).  All definitions
are computable and follow the source line by line; network and DOM side
effects are abstracted into explicit inputs and outputs.
-/

/-! ### JavaScript string primitives

Models of the String builtins the source uses: trim, split, indexOf,
substring (via take and drop), startsWith.
-/

/-- Whitespace recognized by the JS String.trim builtin (ASCII part). -/
def isWS (c : Char) : Bool :=
  c = ' ' || c = '\t' || c = '\n' || c = '\r' || c = '\x0b' || c = '\x0c'

/-- Drop leading whitespace characters. -/
def dropLeadWS : List Char → List Char
  | [] => []
  | c :: cs => if isWS c then dropLeadWS cs else c :: cs

/-- Model of the JS String.trim builtin: strip whitespace from both ends. -/
def jsTrim (s : List Char) : List Char :=
  dropLeadWS ((dropLeadWS s.reverse).reverse)

/-- Model of the JS String.split with separator a newline character. -/
def splitNL : List Char → List (List Char)
  | [] => [[]]
  | c :: cs =>
      if c = '\n' then [] :: splitNL cs
      else
        match splitNL cs with
        | [] => [[c]]
        | l :: ls => (c :: l) :: ls

/-- Model of the JS String.indexOf builtin for a single character:
index of the first occurrence, or none (JS returns -1). -/
def idxOf (ch : Char) : List Char → Option Nat
  | [] => none
  | c :: cs => if c = ch then some 0 else (idxOf ch cs).map (· + 1)

/-- Model of the JS falsy-coalescing idiom x || y on optional strings:
an absent field or an empty string falls through to the default. -/
def jsOr (a : Option (List Char)) (b : List Char) : List Char :=
  match a with
  | some s => if s = [] then b else s
  | none => b

/-- Model of cardData.field || two-step fallback chains. -/
def jsOrEmpty (a : Option (List Char)) : List Char :=
  jsOr a []

/-! ### Card parser (chat.js, parseCards, lines 55-90)

The source scans the assistant text with the global regular expression
matching a literal open delimiter, a shortest body, and a literal close
delimiter, repeatedly from left to right.  Each body is trimmed, split on
newlines, and folded into a JS object: a line whose trimmed form starts with
the reserved data prefix has the remainder after the first colon parsed as
JSON (a parse failure stores an empty object), and any other line with a
colon at index greater than zero becomes a string field keyed by the trimmed
text before the colon.  JSON.parse is a platform builtin, so it enters the
embedding as a parameter jp; the catch branch corresponds to jp returning
none.  The JS object is modelled as an insertion-ordered association list
with overwrite-in-place semantics (setField).
-/

/-- Parsed JSON values: the claims only distinguish the empty object produced
by the recovery branch from whatever a successful parse yields, so a
successful parse is kept abstract as the source text it came from. -/
inductive JsonVal where
  | emptyObj : JsonVal
  | parsed : List Char → JsonVal
deriving DecidableEq

/-- A value stored in a card object: either a string field from a key-value
line or the JSON value stored under the data key. -/
inductive FieldVal where
  | str : List Char → FieldVal
  | json : JsonVal → FieldVal
deriving DecidableEq

/-- A card record: a JS object modelled as an insertion-ordered association
list from property names to values. -/
def CardObj : Type := List (List Char × FieldVal)

instance : DecidableEq CardObj := by
  unfold CardObj
  infer_instance

/-- Property assignment on a JS object: overwrite in place if the key exists,
otherwise append (JS objects keep first-insertion order). -/
def setField (fs : CardObj) (k : List Char) (v : FieldVal) : CardObj :=
  match fs with
  | [] => [(k, v)]
  | (k', v') :: rest => if k' = k then (k, v) :: rest else (k', v') :: setField rest k v

/-- Property lookup on a JS object. -/
def lookupField (fs : CardObj) (k : List Char) : Option FieldVal :=
  match fs with
  | [] => none
  | (k', v) :: rest => if k' = k then some v else lookupField rest k

/-- The reserved marker of a data line. -/
def DATA_MARK : List Char := "data:".data

/-- The open delimiter of a card block. -/
def CARD_OPEN : List Char := "[CARD]".data

/-- The close delimiter of a card block. -/
def CARD_CLOSE : List Char := "[/CARD]".data

/-- One iteration of the line callback in parseCards: the source checks
line.trim().startsWith on the data prefix, and otherwise splits at the first
colon when its index is positive, trimming key and value. -/
def processLine (jp : List Char → Option JsonVal) (card : CardObj) (line : List Char) :
    CardObj :=
  if DATA_MARK.isPrefixOf (jsTrim line) then
    let jsonStr :=
      match idxOf ':' line with
      | some i => jsTrim (line.drop (i + 1))
      | none => jsTrim line
    match jp jsonStr with
    | some v => setField card "data".data (.json v)
    | none => setField card "data".data (.json .emptyObj)
  else
    match idxOf ':' line with
    | some i =>
        if 0 < i then
          setField card (jsTrim (line.take i)) (.str (jsTrim (line.drop (i + 1))))
        else card
    | none => card

/-- Build the card object of one block body: trim the body, split on
newlines, and fold the line callback over the lines starting from the empty
object. -/
def parseContent (jp : List Char → Option JsonVal) (content : List Char) : CardObj :=
  (splitNL (jsTrim content)).foldl (processLine jp) []

/-- Split a character list at the first occurrence of the pattern: returns
the text before the occurrence and the text after it. -/
def findSplit (pat : List Char) : List Char → Option (List Char × List Char)
  | [] => if pat.isPrefixOf ([] : List Char) then some ([], []) else none
  | c :: cs =>
      if pat.isPrefixOf (c :: cs) then some ([], (c :: cs).drop pat.length)
      else (findSplit pat cs).map (fun p => (c :: p.1, p.2))

/-- The scanning loop of parseCards, with an explicit fuel argument standing
for the bound on the number of regex iterations (each match consumes at
least one character, so input length suffices).  Each emitted element pairs
the parsed card with the full matched span (match[0] in the source). -/
def parseCardsAux (jp : List Char → Option JsonVal) :
    Nat → List Char → List (CardObj × List Char)
  | 0, _ => []
  | fuel + 1, s =>
      match findSplit CARD_OPEN s with
      | none => []
      | some (_, rest) =>
          match findSplit CARD_CLOSE rest with
          | none => []
          | some (content, rest2) =>
              (parseContent jp content, CARD_OPEN ++ content ++ CARD_CLOSE) ::
                parseCardsAux jp fuel rest2

/-- parseCards (chat.js lines 55-90): repeatedly match the next card block
left to right and collect the parsed cards in source order.  Pure function
on the input text. -/
def parseCards (jp : List Char → Option JsonVal) (s : List Char) :
    List (CardObj × List Char) :=
  parseCardsAux jp (s.length + 1) s

/-! ### Well-formed block layouts

A text containing N well-formed, non-nested, non-overlapping card blocks is
described by its layout: a list of (preText, blockBody) pairs followed by
trailing text.  Well-formedness states that the delimiters written by the
layout are the ones the left-to-right scan finds: no earlier occurrence of
the open delimiter inside a preText segment, no earlier occurrence of the
close delimiter inside a block body, and no open delimiter in the trailing
text.  The occurrence checks look at the full remaining text, so occurrences
straddling a segment boundary are also excluded.
-/

/-- Reassemble a block layout into the input text. -/
def assemble : List (List Char × List Char) → List Char → List Char
  | [], t => t
  | (pre, c) :: rest, t => pre ++ CARD_OPEN ++ c ++ CARD_CLOSE ++ assemble rest t

/-- No occurrence of the pattern starts inside the first segment of
firstSeg ++ suffix. -/
def noHitWithin (pat : List Char) : List Char → List Char → Bool
  | [], _ => true
  | c :: a, suffix => !(pat.isPrefixOf (c :: (a ++ suffix))) && noHitWithin pat a suffix

/-- No occurrence of the pattern anywhere in the text. -/
def noHit (pat : List Char) : List Char → Bool
  | [] => !(pat.isPrefixOf ([] : List Char))
  | c :: cs => !(pat.isPrefixOf (c :: cs)) && noHit pat cs

/-- Well-formedness of a block layout: each laid-out delimiter is the first
one the scan can find. -/
def wfBlocks : List (List Char × List Char) → List Char → Bool
  | [], t => noHit CARD_OPEN t
  | (pre, c) :: rest, t =>
      noHitWithin CARD_OPEN pre (CARD_OPEN ++ c ++ CARD_CLOSE ++ assemble rest t) &&
      noHitWithin CARD_CLOSE c (CARD_CLOSE ++ assemble rest t) &&
      wfBlocks rest t

/-! ### Line classification helpers and the line step written from the spec

The specification describes the per-line behaviour independently: a line
whose trimmed form starts with the data marker stores the JSON value of the
remainder after the first colon (empty object on parse failure), and any
other line with a colon at a positive index is split at the first colon with
key and value trimmed.  specLineStep is written from those words; the
refinement theorem compares it with processLine, which is written from the
source.
-/

/-- A line whose trimmed form starts with the reserved data marker. -/
def isDataLine (line : List Char) : Bool :=
  DATA_MARK.isPrefixOf (jsTrim line)

/-- The JSON payload of a data line: the remainder after the first colon,
trimmed. -/
def dataPayload (line : List Char) : List Char :=
  match idxOf ':' line with
  | some i => jsTrim (line.drop (i + 1))
  | none => jsTrim line

/-- A non-data line that nevertheless assigns the data property, because its
trimmed key text equals the word data. -/
def writesDataKey (line : List Char) : Bool :=
  !(isDataLine line) &&
    (match idxOf ':' line with
     | some i => decide (0 < i) && decide (jsTrim (line.take i) = "data".data)
     | none => false)

/-- The lines of a block body, as the source computes them. -/
def blockLines (content : List Char) : List (List Char) :=
  splitNL (jsTrim content)

/-- A line is harmless for the data-recovery claim: a data line whose
payload fails to parse, or a non-data line that does not assign the data
property. -/
def okLine (jp : List Char → Option JsonVal) (line : List Char) : Bool :=
  if isDataLine line then (jp (dataPayload line)).isNone else !(writesDataKey line)

/-- The per-line step as the specification words it (spec-side definition for
the refinement comparison; the source-side definition is processLine). -/
def specLineStep (jp : List Char → Option JsonVal) (card : CardObj) (line : List Char) :
    CardObj :=
  match idxOf ':' line with
  | none => card
  | some i =>
      if DATA_MARK.isPrefixOf (jsTrim line) then
        setField card "data".data (.json ((jp (jsTrim (line.drop (i + 1)))).getD .emptyObj))
      else if 0 < i then
        setField card (jsTrim (line.take i)) (.str (jsTrim (line.drop (i + 1))))
      else card

/-- The block-body parse as the specification words it. -/
def specParseContent (jp : List Char → Option JsonVal) (content : List Char) : CardObj :=
  (splitNL (jsTrim content)).foldl (specLineStep jp) []

/-- A concrete JSON parser for witnesses: every input parses. -/
def jsonParseAll : List Char → Option JsonVal :=
  fun s => some (.parsed s)

/-- A concrete JSON parser for witnesses: no input parses. -/
def jsonParseNone : List Char → Option JsonVal :=
  fun _ => none

/-! ### Generic list helpers shared by the stores -/

/-- Model of the JS Array.findIndex builtin. -/
def findIdxWith {α : Type} (p : α → Bool) : List α → Option Nat
  | [] => none
  | x :: xs => if p x then some 0 else (findIdxWith p xs).map (· + 1)

/-- Model of the JS Array.find builtin. -/
def findWith {α : Type} (p : α → Bool) : List α → Option α
  | [] => none
  | x :: xs => if p x then some x else findWith p xs

/-- In-place update of the element at an index, as JS mutation of arr[i]
does; out-of-range indices leave the list unchanged. -/
def modifyAt {α : Type} : List α → Nat → (α → α) → List α
  | [], _, _ => []
  | x :: xs, 0, f => f x :: xs
  | x :: xs, n + 1, f => x :: modifyAt xs n f

/-! ### Chat sessions (chat.js)

State of the chat module: the saved-chat store (localStorage key
mobix_saved_chats), the id of the currently open chat, the backend session
id, and the in-memory transcript of the open chat.  Timestamps are Nat.
-/

/-- The role string of a user message. -/
def USER_ROLE : List Char := "user".data

/-- The role string of an assistant message. -/
def ASSISTANT_ROLE : List Char := "assistant".data

/-- The default chat title. -/
def NEW_CHAT_TITLE : List Char := "New Chat".data

/-- One chat message. -/
structure ChatMsg where
  role : List Char
  content : List Char
deriving DecidableEq

/-- One saved chat record. -/
structure ChatRec where
  id : List Char
  title : List Char
  messages : List ChatMsg
  updatedAt : Nat
  sessionId : Option (List Char)
deriving DecidableEq

/-- The mutable state of the chat module. -/
structure ChatState where
  savedChats : List ChatRec
  currentChatId : Option (List Char)
  chatSessionId : Option (List Char)
  chatHistory : List ChatMsg
deriving DecidableEq

/-- generateChatTitle (chat.js lines 320-326): trim the first message, cut
to 30 characters with an ellipsis when longer, default when empty. -/
def generateChatTitle (firstMessage : List Char) : List Char :=
  let title := jsTrim firstMessage
  let title2 := if 30 < title.length then title.take 30 ++ "...".data else title
  if title2 = [] then NEW_CHAT_TITLE else title2

/-- saveCurrentChat (chat.js lines 328-350): no-op without a current chat or
with an empty transcript; otherwise build the chat record, keeping the title
of an already saved chat and deriving a fresh title from the first message
otherwise, then overwrite in place or insert at the front. -/
def saveCurrentChat (st : ChatState) (now : Nat) : ChatState :=
  match st.currentChatId with
  | none => st
  | some cid =>
      if st.chatHistory = [] then st
      else
        let firstContent :=
          match st.chatHistory.head? with
          | some m => if m.content = [] then NEW_CHAT_TITLE else m.content
          | none => NEW_CHAT_TITLE
        let existingIndex := findIdxWith (fun (c : ChatRec) => decide (c.id = cid)) st.savedChats
        let existingChat :=
          match existingIndex with
          | some i => st.savedChats.get? i
          | none => none
        let title :=
          match existingChat with
          | some c => c.title
          | none => generateChatTitle firstContent
        let chatData : ChatRec :=
          { id := cid, title := title, messages := st.chatHistory,
            updatedAt := now, sessionId := st.chatSessionId }
        match existingIndex with
        | some i => { st with savedChats := st.savedChats.set i chatData }
        | none => { st with savedChats := chatData :: st.savedChats }

/-- loadChat (chat.js lines 384-408): make a saved chat the open one; a
missing id is a no-op. -/
def loadChat (st : ChatState) (cid : List Char) : ChatState :=
  match findWith (fun (c : ChatRec) => decide (c.id = cid)) st.savedChats with
  | none => st
  | some chat =>
      { st with currentChatId := some cid,
                chatSessionId := some (jsOr chat.sessionId chat.id),
                chatHistory := chat.messages }

/-- deleteChat (chat.js lines 410-439), confirmed path: drop the chat from
the store; when it was the open chat, clear the open state and fall back to
the first remaining stored chat, or to the welcome screen when none
remains. -/
def deleteChat (st : ChatState) (cid : List Char) : ChatState :=
  let chats := st.savedChats.filter (fun c => !(decide (c.id = cid)))
  if st.currentChatId = some cid then
    let st1 : ChatState :=
      { savedChats := chats, currentChatId := none, chatSessionId := none, chatHistory := [] }
    match chats with
    | [] => st1
    | first :: _ => loadChat st1 first.id
  else { st with savedChats := chats }

/-- startNewChat (chat.js lines 443-466): save the current chat when it has
messages and is already stored, then open a fresh empty unsaved session. -/
def startNewChat (st : ChatState) (freshId : List Char) (now : Nat) : ChatState :=
  let st1 :=
    match st.currentChatId with
    | some cid =>
        if st.chatHistory ≠ [] then
          if (findWith (fun (c : ChatRec) => decide (c.id = cid)) st.savedChats).isSome then
            saveCurrentChat st now
          else st
        else st
    | none => st
  { st1 with currentChatId := some freshId, chatSessionId := some freshId, chatHistory := [] }

/-- Completion handler of sendChatMessage (chat.js lines 504-547): the part
of the workflow that runs when the network response arrives.  targetChatId
and targetSessionId are the values captured before the network call, message
is the captured user message, botResponse the assistant reply.  When the
open chat changed while waiting, the visible transcript is left alone and
the reply is routed into the saved record of the captured chat, creating a
minimal record when none exists; otherwise the reply is appended to the open
transcript and saved. -/
def handleChatResponse (st : ChatState) (targetChatId : List Char)
    (targetSessionId : Option (List Char)) (message botResponse : List Char)
    (now : Nat) : ChatState :=
  if st.currentChatId ≠ some targetChatId then
    match findIdxWith (fun (c : ChatRec) => decide (c.id = targetChatId)) st.savedChats with
    | some i =>
        { st with savedChats := modifyAt st.savedChats i (fun c =>
            { c with messages := c.messages ++ [⟨ASSISTANT_ROLE, botResponse⟩],
                     updatedAt := now }) }
    | none =>
        { st with savedChats :=
            ⟨targetChatId, generateChatTitle message,
              [⟨USER_ROLE, message⟩, ⟨ASSISTANT_ROLE, botResponse⟩],
              now, targetSessionId⟩ :: st.savedChats }
  else
    let st1 := { st with chatHistory := st.chatHistory ++ [⟨ASSISTANT_ROLE, botResponse⟩] }
    saveCurrentChat st1 now

/-! ### Travel note classifier and card construction (travelnote.js lines 207-252)

A raw incoming record is a JS object with optional string fields; the JS
falsy coalescing of absent and empty fields is modelled by jsOr and
jsOrEmpty on Option values.
-/

/-- A raw incoming card record, as the decoded cardData object. -/
structure RawCard where
  type : Option (List Char) := none
  mode : Option (List Char) := none
  name : Option (List Char) := none
  title : Option (List Char) := none
  route : Option (List Char) := none
  address : Option (List Char) := none
  city : Option (List Char) := none
  airline : Option (List Char) := none
  details : Option (List Char) := none
  description : Option (List Char) := none
  price : Option (List Char) := none
  rating : Option (List Char) := none
  image_url : Option (List Char) := none
  photo : Option (List Char) := none
  image : Option (List Char) := none
  link : Option (List Char) := none
  url : Option (List Char) := none
deriving DecidableEq

/-- Classification (travelnote.js lines 221-236): category and cardType from
the type and mode fields, with the transport rule first and activities as
the default. -/
def classifyCard (cardData : RawCard) : List Char × List Char :=
  let ty := jsOrEmpty cardData.type
  let mo := jsOrEmpty cardData.mode
  if ty = "transport".data ∨ mo = "plane".data ∨ mo = "car".data ∨
      mo = "bus".data ∨ mo = "train".data then
    ("transports".data, if mo = [] then "plane".data else mo)
  else if ty = "hotel".data then
    ("hotels".data, "hotel".data)
  else if ty = "restaurant".data then
    ("restaurants".data, "restaurant".data)
  else
    ("activities".data, "activity".data)

/-- A stored note card (travelnote.js lines 239-252). -/
structure NoteCard where
  id : List Char
  title : List Char
  subtitle : List Char
  details : List Char
  price : List Char
  rating : List Char
  image_url : List Char
  link : List Char
  category : List Char
  cardType : List Char
  data : RawCard
  addedAt : Nat
deriving DecidableEq

/-- Build the cardItem object (travelnote.js lines 239-252), with the
fallback chains of the source. -/
def mkCardItem (cardData : RawCard) (freshCardId : List Char) (now : Nat) : NoteCard :=
  let cc := classifyCard cardData
  { id := freshCardId
    title := jsOr cardData.name (jsOr cardData.title (jsOr cardData.route "Item".data))
    subtitle := jsOr cardData.address (jsOr cardData.city (jsOr cardData.airline []))
    details := jsOr cardData.details (jsOr cardData.description [])
    price := jsOrEmpty cardData.price
    rating := jsOrEmpty cardData.rating
    image_url := jsOr cardData.image_url (jsOr cardData.photo (jsOr cardData.image []))
    link := jsOr cardData.link (jsOr cardData.url [])
    category := cc.1
    cardType := cc.2
    data := cardData
    addedAt := now }

/-! ### Travel note store (travelnote.js)

A travel note holds free text plus a list of cards; the card type is a type
parameter because the migration path stores re-tagged legacy items while the
add-card path stores classified NoteCards.
-/

/-- One travel note document. -/
structure TNote (κ : Type) where
  id : List Char
  title : List Char
  content : List Char
  cards : List κ
  createdAt : Nat
  updatedAt : Nat
deriving DecidableEq

/-- The mutable state of the travel note module: the note list and the id of
the note open in the editor. -/
structure TNState where
  travelNotes : List (TNote NoteCard)
  activeNoteId : Option (List Char)
deriving DecidableEq

/-- createNewNote (travelnote.js lines 114-131): build the note, insert it
at the front, persist, and open it (openNote finds the just-inserted id and
marks it active). -/
def createNewNote (st : TNState) (initialTitle : Option (List Char))
    (initialCard : Option NoteCard) (freshNoteId : List Char) (now : Nat) : TNState :=
  let newNote : TNote NoteCard :=
    { id := freshNoteId
      title := jsOr initialTitle "New Travel Note".data
      content := []
      cards := match initialCard with | some c => [c] | none => []
      createdAt := now
      updatedAt := now }
  { travelNotes := newNote :: st.travelNotes, activeNoteId := some freshNoteId }

/-- addCardToTravelNote (travelnote.js lines 207-303), decoded path.  The
Bool of the result records that saveNotes persisted the store.  With no
notes or no active note a new note is created from the card (titled from
the city field when present); with an active note that exists the card is
appended there; with a stale active id the card falls back to the first
note. -/
def addCardToTravelNote (st : TNState) (cardData : RawCard)
    (freshCardId freshNoteId : List Char) (now : Nat) : TNState × Bool :=
  let cardItem := mkCardItem cardData freshCardId now
  let noteTitle : List Char :=
    if jsOrEmpty cardData.city ≠ [] then "Trip to ".data ++ jsOrEmpty cardData.city
    else "My Travel Note".data
  match st.travelNotes, st.activeNoteId with
  | [], _ =>
      (createNewNote st (some noteTitle) (some cardItem) freshNoteId now, true)
  | _ :: _, none =>
      (createNewNote st (some noteTitle) (some cardItem) freshNoteId now, true)
  | n0 :: rest, some aid =>
      match findIdxWith (fun (n : TNote NoteCard) => decide (n.id = aid)) (n0 :: rest) with
      | some i =>
          ({ st with travelNotes := modifyAt (n0 :: rest) i (fun n =>
              { n with cards := n.cards ++ [cardItem], updatedAt := now }) }, true)
      | none =>
          ({ st with travelNotes :=
              { n0 with cards := n0.cards ++ [cardItem], updatedAt := now } :: rest }, true)

/-- The card lists of a note store, note by note. -/
def cardsLists (ns : List (TNote NoteCard)) : List (List NoteCard) :=
  ns.map (fun n => n.cards)

/-! ### Legacy migration (travelnote.js, loadNotes, lines 61-103)

The legacy flat document has four typed arrays that may each be absent; its
items are opaque payloads.  The storage record models the two localStorage
keys the function touches: the multi-note key it reads and writes, and the
legacy key it only reads.
-/

/-- One legacy item: an opaque JS object. -/
structure LegacyItem where
  payload : List Char
deriving DecidableEq

/-- A migrated card: the legacy item spread plus the category tag. -/
structure MigCard where
  item : LegacyItem
  category : List Char
deriving DecidableEq

/-- The legacy flat travel note document. -/
structure LegacyDoc where
  transports : Option (List LegacyItem)
  hotels : Option (List LegacyItem)
  restaurants : Option (List LegacyItem)
  activitys : Option (List LegacyItem)
deriving DecidableEq

/-- The two localStorage keys of the note store. -/
structure NoteStorage where
  travel_notes : Option (List (TNote MigCard))
  travel_note_legacy : Option LegacyDoc
deriving DecidableEq

/-- Convert one legacy array (travelnote.js lines 82-91): when present and
non-empty, each item is pushed with a category tag. -/
def tagItems (arr : Option (List LegacyItem)) (cat : List Char) : List MigCard :=
  match arr with
  | some items => if 0 < items.length then items.map (fun it => ⟨it, cat⟩) else []
  | none => []

/-- All migrated cards, in the fixed category order of the source; the
category string activitys is rewritten to activities by the replace call. -/
def migrateCards (oldData : LegacyDoc) : List MigCard :=
  tagItems oldData.transports "transports".data ++
  tagItems oldData.hotels "hotels".data ++
  tagItems oldData.restaurants "restaurants".data ++
  tagItems oldData.activitys "activities".data

/-- loadNotes (travelnote.js lines 61-103): read the multi-note store, then,
when it is empty and a legacy document with at least one array field exists
and yields at least one card, append a single migrated note and persist.
Returns the in-memory note list and the storage after the call; the legacy
key is never written. -/
def loadNotes (storage : NoteStorage) (freshId : List Char) (now : Nat) :
    List (TNote MigCard) × NoteStorage :=
  let travelNotes := storage.travel_notes.getD []
  match storage.travel_note_legacy with
  | none => (travelNotes, storage)
  | some oldData =>
      if travelNotes.length = 0 then
        if oldData.transports.isSome || oldData.hotels.isSome ||
            oldData.restaurants.isSome || oldData.activitys.isSome then
          let migratedNote : TNote MigCard :=
            { id := freshId, title := "My Travel Items".data, content := [],
              cards := migrateCards oldData, createdAt := now, updatedAt := now }
          if 0 < migratedNote.cards.length then
            let notes := travelNotes ++ [migratedNote]
            (notes, { storage with travel_notes := some notes })
          else (travelNotes, storage)
        else (travelNotes, storage)
      else (travelNotes, storage)

/-! ### Auto-save debounce (travelnote.js, scheduleAutoSave lines 588-598 and
the input and blur listeners of setupEventListeners lines 529-547)

The runtime timer table is modelled explicitly: timers holds the ids of the
scheduled timeouts of this module that have neither fired nor been
cleared, autoSaveTimer is the stored handle, nextTimerId generates fresh
ids.  content is the editor content and saves the sequence of persisted
snapshots, oldest first.  An input event re-schedules the debounced save
after updating the content; a timer firing runs saveCurrentNote; a blur
event runs saveCurrentNote directly and does not touch the timer table.
-/

/-- State of the auto-save mechanism. -/
structure EditorState where
  timers : List Nat
  autoSaveTimer : Option Nat
  nextTimerId : Nat
  content : List Char
  saves : List (List Char)
deriving DecidableEq

/-- saveCurrentNote, restricted to its persistence effect: append a snapshot
of the current content to the persisted saves. -/
def saveNoteNow (st : EditorState) : EditorState :=
  { st with saves := st.saves ++ [st.content] }

/-- scheduleAutoSave (travelnote.js lines 588-598): clear the stored timeout
when one is held, then schedule a fresh one and store its handle. -/
def scheduleAutoSave (st : EditorState) : EditorState :=
  let timers :=
    match st.autoSaveTimer with
    | some t => st.timers.erase t
    | none => st.timers
  { st with timers := timers ++ [st.nextTimerId],
            autoSaveTimer := some st.nextTimerId,
            nextTimerId := st.nextTimerId + 1 }

/-- The events that drive the auto-save mechanism. -/
inductive EditorEvent where
  | edit : List Char → EditorEvent
  | blurEvent : EditorEvent
  | timerFire : Nat → EditorEvent
deriving DecidableEq

/-- One step of the mechanism: an input event updates the content and
re-schedules; blur saves immediately (the handler calls saveCurrentNote and
nothing else); a timeout fires only if still scheduled, leaves the timer
table without it, and saves. -/
def stepEditor (st : EditorState) : EditorEvent → EditorState
  | .edit c => scheduleAutoSave { st with content := c }
  | .blurEvent => saveNoteNow st
  | .timerFire t =>
      if t ∈ st.timers then saveNoteNow { st with timers := st.timers.erase t }
      else st

/-- Run a sequence of events. -/
def runEditor (st : EditorState) (evs : List EditorEvent) : EditorState :=
  evs.foldl stepEditor st

/-- The invariant of the timer table: at most one timeout of this mechanism
is scheduled, and a scheduled one is the stored handle. -/
def EditorInv (st : EditorState) : Prop :=
  st.timers = [] ∨ ∃ t, st.timers = [t] ∧ st.autoSaveTimer = some t

/-! ### Itinerary save (planner module, saveItinerary)

The editor state at save time is the list of day cards currently on screen,
each carrying its activity input values and its notes textarea; the form
fields are the scalar inputs.
-/

/-- One day card of the itinerary editor at save time. -/
structure DayCardInput where
  activityInputs : List (List Char)
  dayNotes : List Char
deriving DecidableEq

/-- One persisted day. -/
structure ItinDay where
  dayNumber : Nat
  activities : List (List Char)
  notes : List Char
deriving DecidableEq

/-- The scalar form fields of the itinerary editor. -/
structure ItinForm where
  origin : List Char
  destination : List Char
  startDate : List Char
  endDate : List Char
  budget : List Char
  notes : List Char
deriving DecidableEq

/-- One persisted itinerary document. -/
structure Itinerary where
  id : List Char
  origin : List Char
  destination : List Char
  startDate : List Char
  endDate : List Char
  budget : List Char
  notes : List Char
  days : List ItinDay
deriving DecidableEq

/-- The non-empty trimmed activity values of one day card. -/
def dayActivities (card : DayCardInput) : List (List Char) :=
  card.activityInputs.filterMap (fun v => if jsTrim v = [] then none else some (jsTrim v))

/-- The forEach over day cards with its positional index: day k gets
dayNumber k+1. -/
def collectDaysFrom (k : Nat) : List DayCardInput → List ItinDay
  | [] => []
  | card :: rest =>
      { dayNumber := k + 1, activities := dayActivities card, notes := card.dayNotes } ::
        collectDaysFrom (k + 1) rest

/-- The days list rebuilt from the current editor state at save time. -/
def collectDays (dayCards : List DayCardInput) : List ItinDay :=
  collectDaysFrom 0 dayCards

/-- saveItinerary: build the document from the form and the on-screen day
cards, then update in place or append. -/
def saveItinerary (itineraries : List Itinerary) (currentItineraryId : List Char)
    (form : ItinForm) (dayCards : List DayCardInput) : List Itinerary :=
  let data : Itinerary :=
    { id := currentItineraryId, origin := form.origin, destination := form.destination,
      startDate := form.startDate, endDate := form.endDate, budget := form.budget,
      notes := form.notes, days := collectDays dayCards }
  match findIdxWith (fun (i : Itinerary) => decide (i.id = currentItineraryId)) itineraries with
  | some i => itineraries.set i data
  | none => itineraries ++ [data]

/-! ## Theorems -/

/-! ### Bool helper lemmas -/

theorem band_split {a b : Bool} (h : (a && b) = true) : a = true ∧ b = true := by
  cases a
  · cases h
  · cases b
    · cases h
    · exact ⟨rfl, rfl⟩

theorem bool_of_bnot {a : Bool} (h : (!a) = true) : a = false := by
  cases a
  · rfl
  · cases h

theorem not_true_of_false {a : Bool} (h : a = false) : ¬(a = true) := by
  rw [h]
  exact Bool.false_ne_true

/-! ### String utility lemmas -/

theorem mem_of_mem_dropLeadWS {x : Char} : ∀ {s : List Char}, x ∈ dropLeadWS s → x ∈ s := by
  intro s
  induction s with
  | nil => intro h; exact h
  | cons c cs ih =>
      intro h
      rw [dropLeadWS] at h
      by_cases hc : isWS c = true
      · rw [if_pos hc] at h
        exact List.mem_cons_of_mem c (ih h)
      · rw [if_neg hc] at h
        exact h

theorem mem_of_mem_jsTrim {x : Char} {s : List Char} (h : x ∈ jsTrim s) : x ∈ s := by
  rw [jsTrim] at h
  have h1 := mem_of_mem_dropLeadWS h
  rw [List.mem_reverse] at h1
  have h2 := mem_of_mem_dropLeadWS h1
  rw [List.mem_reverse] at h2
  exact h2

theorem idxOf_isSome_of_mem {x : Char} : ∀ {s : List Char}, x ∈ s → (idxOf x s).isSome = true := by
  intro s
  induction s with
  | nil => intro h; cases h
  | cons c cs ih =>
      intro h
      rw [idxOf]
      by_cases hc : c = x
      · rw [if_pos hc]; rfl
      · rw [if_neg hc]
        have hx : x ∈ cs := by
          cases h with
          | head => exact absurd rfl hc
          | tail _ h2 => exact h2
        rcases Option.isSome_iff_exists.mp (ih hx) with ⟨i, hi⟩
        rw [hi]
        rfl

theorem isPrefixOf_exists : ∀ {p t : List Char}, p.isPrefixOf t = true → ∃ u, t = p ++ u := by
  intro p
  induction p with
  | nil => intro t _; exact ⟨t, rfl⟩
  | cons a as ih =>
      intro t h
      cases t with
      | nil => simp [List.isPrefixOf] at h
      | cons b bs =>
          simp only [List.isPrefixOf, Bool.and_eq_true, beq_iff_eq] at h
          obtain ⟨hab, hrest⟩ := h
          obtain ⟨u, hu⟩ := ih hrest
          exact ⟨u, by rw [hab.symm, hu]; rfl⟩

theorem isPrefixOf_append (p u : List Char) : p.isPrefixOf (p ++ u) = true := by
  induction p with
  | nil => simp [List.isPrefixOf]
  | cons a as ih => simp [List.isPrefixOf, ih]

theorem colon_mem_of_data_mark {t : List Char} (h : DATA_MARK.isPrefixOf t = true) :
    ':' ∈ t := by
  obtain ⟨u, hu⟩ := isPrefixOf_exists h
  rw [hu]
  exact List.mem_append_left u (by decide)

/-! ### findSplit lemmas -/

theorem findSplit_self (pat b : List Char) : findSplit pat (pat ++ b) = some ([], b) := by
  cases pat with
  | nil =>
      cases b with
      | nil => rfl
      | cons c cs => rfl
  | cons p ps =>
      show findSplit (p :: ps) (p :: (ps ++ b)) = some ([], b)
      rw [findSplit]
      have hpre : (p :: ps).isPrefixOf (p :: (ps ++ b)) = true := by
        have h := isPrefixOf_append (p :: ps) b
        rw [List.cons_append] at h
        exact h
      rw [if_pos hpre]
      have hd : ((p :: ps) ++ b).drop (p :: ps).length = b := List.drop_left _ _
      simp only [List.cons_append] at hd
      rw [hd]

theorem findSplit_place (pat : List Char) :
    ∀ (a b : List Char), noHitWithin pat a (pat ++ b) = true →
      findSplit pat (a ++ (pat ++ b)) = some (a, b) := by
  intro a
  induction a with
  | nil => intro b _; exact findSplit_self pat b
  | cons x a ih =>
      intro b h
      rw [noHitWithin] at h
      obtain ⟨h1, h2⟩ := band_split h
      have h1' : pat.isPrefixOf (x :: (a ++ (pat ++ b))) = false := bool_of_bnot h1
      show findSplit pat (x :: (a ++ (pat ++ b))) = some (x :: a, b)
      rw [findSplit, if_neg (not_true_of_false h1'), ih b h2]
      rfl

theorem findSplit_none (pat : List Char) :
    ∀ {t : List Char}, noHit pat t = true → findSplit pat t = none := by
  intro t
  induction t with
  | nil =>
      intro h
      rw [noHit] at h
      rw [findSplit, if_neg (not_true_of_false (bool_of_bnot h))]
  | cons c cs ih =>
      intro h
      rw [noHit] at h
      obtain ⟨h1, h2⟩ := band_split h
      rw [findSplit, if_neg (not_true_of_false (bool_of_bnot h1)), ih h2]
      rfl

theorem findSplit_some_length (pat : List Char) (hp : pat ≠ []) :
    ∀ {s a b : List Char}, findSplit pat s = some (a, b) → b.length < s.length := by
  intro s
  induction s with
  | nil =>
      intro a b h
      have hfalse : pat.isPrefixOf ([] : List Char) = false := by
        cases pat with
        | nil => exact absurd rfl hp
        | cons p ps => rfl
      rw [findSplit, if_neg (not_true_of_false hfalse)] at h
      cases h
  | cons c cs ih =>
      intro a b h
      rw [findSplit] at h
      by_cases hpre : pat.isPrefixOf (c :: cs) = true
      · rw [if_pos hpre] at h
        have hb : b = (c :: cs).drop pat.length := by
          cases h; rfl
        have hlen : b.length = (c :: cs).length - pat.length := by
          rw [hb, List.length_drop]
        have hp1 : 0 < pat.length := List.length_pos.mpr hp
        simp only [List.length_cons] at hlen ⊢
        omega
      · rw [if_neg hpre] at h
        cases ho : findSplit pat cs with
        | none => rw [ho] at h; cases h
        | some p =>
            obtain ⟨p1, p2⟩ := p
            rw [ho] at h
            have hb : b = p2 := by cases h; rfl
            have := ih ho
            rw [hb]
            simp only [List.length_cons]
            omega

/-! ### Structure of the scan over a well-formed layout -/

theorem parseCardsAux_succ (jp : List Char → Option JsonVal) (f : Nat) (s : List Char) :
    parseCardsAux jp (f + 1) s =
      match findSplit CARD_OPEN s with
      | none => []
      | some (_, rest) =>
          match findSplit CARD_CLOSE rest with
          | none => []
          | some (content, rest2) =>
              (parseContent jp content, CARD_OPEN ++ content ++ CARD_CLOSE) ::
                parseCardsAux jp f rest2 := rfl

theorem parseCardsAux_step (jp : List Char → Option JsonVal) (f : Nat)
    (s pre mid content rest2 : List Char)
    (h1 : findSplit CARD_OPEN s = some (pre, mid))
    (h2 : findSplit CARD_CLOSE mid = some (content, rest2)) :
    parseCardsAux jp (f + 1) s =
      (parseContent jp content, CARD_OPEN ++ content ++ CARD_CLOSE) ::
        parseCardsAux jp f rest2 := by
  simp only [parseCardsAux_succ, h1, h2]

theorem parseCardsAux_assemble (jp : List Char → Option JsonVal) :
    ∀ (blocks : List (List Char × List Char)) (t : List Char) (fuel : Nat),
      wfBlocks blocks t = true → (assemble blocks t).length < fuel →
      parseCardsAux jp fuel (assemble blocks t) =
        blocks.map (fun b => (parseContent jp b.2, CARD_OPEN ++ b.2 ++ CARD_CLOSE)) := by
  intro blocks
  induction blocks with
  | nil =>
      intro t fuel hwf hfuel
      rw [wfBlocks] at hwf
      rw [assemble] at hfuel ⊢
      cases fuel with
      | zero => omega
      | succ f =>
          rw [parseCardsAux_succ, findSplit_none CARD_OPEN hwf]
          rfl
  | cons blk rest ih =>
      obtain ⟨pre, c⟩ := blk
      intro t fuel hwf hfuel
      rw [wfBlocks] at hwf
      obtain ⟨h12, h3⟩ := band_split hwf
      obtain ⟨h1, h2⟩ := band_split h12
      rw [assemble] at hfuel ⊢
      cases fuel with
      | zero => omega
      | succ f =>
          have h1a : noHitWithin CARD_OPEN pre
              (CARD_OPEN ++ (c ++ (CARD_CLOSE ++ assemble rest t))) = true := by
            simpa only [List.append_assoc] using h1
          have e1 := findSplit_place CARD_OPEN pre (c ++ (CARD_CLOSE ++ assemble rest t)) h1a
          have e2 := findSplit_place CARD_CLOSE c (assemble rest t) h2
          have hlen : (assemble rest t).length < f := by
            have hopen : CARD_OPEN.length = 6 := rfl
            have hclose : CARD_CLOSE.length = 7 := rfl
            simp only [List.length_append, hopen, hclose] at hfuel
            omega
          have estep := parseCardsAux_step jp f
            (pre ++ (CARD_OPEN ++ (c ++ (CARD_CLOSE ++ assemble rest t))))
            pre (c ++ (CARD_CLOSE ++ assemble rest t)) c (assemble rest t) e1 e2
          simp only [List.append_assoc]
          rw [estep, ih t f h3 hlen]
          rfl

/-! ### The per-line behaviour agrees with the wording of the specification -/

theorem idxOf_eq_some_of_mem {x : Char} {s : List Char} (h : x ∈ s) :
    ∃ i, idxOf x s = some i :=
  Option.isSome_iff_exists.mp (idxOf_isSome_of_mem h)

theorem processLine_eq_specLineStep (jp : List Char → Option JsonVal)
    (card : CardObj) (line : List Char) :
    processLine jp card line = specLineStep jp card line := by
  rw [processLine, specLineStep]
  by_cases hd : DATA_MARK.isPrefixOf (jsTrim line) = true
  · obtain ⟨i, hi⟩ := idxOf_eq_some_of_mem
      (mem_of_mem_jsTrim (colon_mem_of_data_mark hd))
    rw [if_pos hd, hi]
    cases hjp : jp (jsTrim (line.drop (i + 1))) with
    | none => simp [hjp, hd]
    | some v => simp [hjp, hd]
  · rw [if_neg hd]
    cases hidx : idxOf ':' line with
    | none => simp
    | some i =>
        by_cases hi : 0 < i
        · simp [hd, hi]
        · simp [hd, hi]

theorem parseContent_eq_specParseContent (jp : List Char → Option JsonVal)
    (content : List Char) :
    parseContent jp content = specParseContent jp content := by
  rw [parseContent, specParseContent]
  have h : processLine jp = specLineStep jp := by
    funext card line
    exact processLine_eq_specLineStep jp card line
  rw [h]

/-- Claim C2: for every input containing N well-formed, non-nested,
non-overlapping card blocks (given as a layout whose reassembly is the
input), parseCards returns exactly N card records in source order, one per
block in block order; the embedding is a pure function of the input, so the
input is not modified; an empty block body yields a card with no fields;
and the per-line field extraction agrees with the specification wording:
the remainder after the data marker is parsed as JSON, and every other line
with a colon at a position greater than zero is split at the first colon
with key and value trimmed. -/
theorem claim_C2 (jp : List Char → Option JsonVal)
    (blocks : List (List Char × List Char)) (t : List Char)
    (hwf : wfBlocks blocks t = true) :
    parseCards jp (assemble blocks t) =
        blocks.map (fun b => (parseContent jp b.2, CARD_OPEN ++ b.2 ++ CARD_CLOSE)) ∧
      (parseCards jp (assemble blocks t)).length = blocks.length ∧
      parseContent jp [] = [] ∧
      (∀ content, parseContent jp content = specParseContent jp content) := by
  have hmain := parseCardsAux_assemble jp blocks t ((assemble blocks t).length + 1) hwf
    (Nat.lt_succ_self _)
  refine ⟨hmain, ?_, rfl, parseContent_eq_specParseContent jp⟩
  rw [parseCards, hmain, List.length_map]

/-- Witness for claim C2 at a concrete two-block input. -/
theorem claim_C2_witness :
    (parseCards jsonParseAll
        (assemble [("x ".data, "a: b".data), ("y".data, [])] " tail".data)).length = 2 := by
  have h := claim_C2 jsonParseAll [("x ".data, "a: b".data), ("y".data, [])] " tail".data
    (by decide)
  exact h.2.1

/-! ### Recovery of the data field on a JSON parse failure -/

theorem lookupField_setField_self (fs : CardObj) (k : List Char) (v : FieldVal) :
    lookupField (setField fs k v) k = some v := by
  induction fs with
  | nil => simp [setField, lookupField]
  | cons p rest ih =>
      obtain ⟨k', v'⟩ := p
      rw [setField]
      by_cases hk : k' = k
      · rw [if_pos hk, lookupField, if_pos rfl]
      · rw [if_neg hk, lookupField, if_neg hk, ih]

theorem lookupField_setField_ne (fs : CardObj) {k' k : List Char} (v : FieldVal)
    (h : k' ≠ k) : lookupField (setField fs k' v) k = lookupField fs k := by
  induction fs with
  | nil => simp [setField, lookupField, h]
  | cons p rest ih =>
      obtain ⟨k0, v0⟩ := p
      rw [setField]
      by_cases hk : k0 = k'
      · rw [if_pos hk, lookupField, if_neg h, lookupField, if_neg (hk ▸ h)]
      · rw [if_neg hk, lookupField, lookupField, ih]

theorem processLine_data_of_fail (jp : List Char → Option JsonVal)
    (card : CardObj) (line : List Char)
    (hd : isDataLine line = true) (hfail : (jp (dataPayload line)).isNone = true) :
    lookupField (processLine jp card line) "data".data = some (.json .emptyObj) := by
  rw [isDataLine] at hd
  rw [processLine, if_pos hd]
  cases hidx : idxOf ':' line with
  | none =>
      have hjp : jp (jsTrim line) = none := by
        rw [dataPayload, hidx] at hfail
        exact Option.isNone_iff_eq_none.mp hfail
      simp only [hidx, hjp]
      exact lookupField_setField_self card _ _
  | some i =>
      have hjp : jp (jsTrim (line.drop (i + 1))) = none := by
        rw [dataPayload, hidx] at hfail
        exact Option.isNone_iff_eq_none.mp hfail
      simp only [hidx, hjp]
      exact lookupField_setField_self card _ _

theorem processLine_data_of_other (jp : List Char → Option JsonVal)
    (card : CardObj) (line : List Char)
    (hd : isDataLine line = false) (hw : writesDataKey line = false) :
    lookupField (processLine jp card line) "data".data = lookupField card "data".data := by
  rw [isDataLine] at hd
  rw [processLine, if_neg (not_true_of_false hd)]
  cases hidx : idxOf ':' line with
  | none => rfl
  | some i =>
      show lookupField
          (if 0 < i then
            setField card (jsTrim (line.take i)) (.str (jsTrim (line.drop (i + 1))))
          else card) "data".data = lookupField card "data".data
      rw [writesDataKey, isDataLine, hd] at hw
      simp only [hidx, Bool.not_false, Bool.true_and] at hw
      by_cases hi : 0 < i
      · have hkey : jsTrim (line.take i) ≠ "data".data := by
          intro hkeq
          rw [decide_eq_true hi, decide_eq_true hkeq] at hw
          cases hw
        rw [if_pos hi]
        exact lookupField_setField_ne card _ hkey
      · rw [if_neg hi]

theorem foldl_processLine_data (jp : List Char → Option JsonVal) :
    ∀ (lines : List (List Char)) (card : CardObj),
      lines.all (okLine jp) = true →
      ((lines.any isDataLine = true →
          lookupField (lines.foldl (processLine jp) card) "data".data =
            some (.json .emptyObj)) ∧
        (lines.any isDataLine = false →
          lookupField (lines.foldl (processLine jp) card) "data".data =
            lookupField card "data".data)) := by
  intro lines
  induction lines with
  | nil =>
      intro card _
      exact ⟨fun h => (nomatch h), fun _ => rfl⟩
  | cons l ls ih =>
      intro card hall
      rw [List.all_cons] at hall
      obtain ⟨hl, hls⟩ := band_split hall
      rw [List.foldl_cons]
      by_cases hd : isDataLine l = true
      · have hfail : (jp (dataPayload l)).isNone = true := by
          rw [okLine, if_pos hd] at hl
          exact hl
        have hstep := processLine_data_of_fail jp card l hd hfail
        constructor
        · intro _
          cases hany : ls.any isDataLine with
          | true => exact (ih (processLine jp card l) hls).1 hany
          | false => rw [(ih (processLine jp card l) hls).2 hany, hstep]
        · intro hfalse
          rw [List.any_cons, hd] at hfalse
          cases hfalse
      · have hd' : isDataLine l = false := by
          cases h : isDataLine l
          · rfl
          · exact absurd h hd
        have hw : writesDataKey l = false := by
          rw [okLine, if_neg (not_true_of_false hd')] at hl
          exact bool_of_bnot hl
        have hstep := processLine_data_of_other jp card l hd' hw
        have hany : (l :: ls).any isDataLine = ls.any isDataLine := by
          rw [List.any_cons, hd']
          rfl
        constructor
        · intro htrue
          rw [hany] at htrue
          exact (ih (processLine jp card l) hls).1 htrue
        · intro hfalse
          rw [hany] at hfalse
          rw [(ih (processLine jp card l) hls).2 hfalse, hstep]

/-- Claim C8: in a well-formed input, a card block whose data line carries
text that fails to parse as JSON (and whose other lines do not assign the
data property) still yields its card, emitted at its source position, and
that card's data field is the empty object; the malformed data line never
drops the card and never fails the parse. -/
theorem claim_C8 (jp : List Char → Option JsonVal)
    (bs1 : List (List Char × List Char)) (pre c : List Char)
    (bs2 : List (List Char × List Char)) (t : List Char)
    (hwf : wfBlocks (bs1 ++ (pre, c) :: bs2) t = true)
    (hok : (blockLines c).all (okLine jp) = true)
    (hdata : (blockLines c).any isDataLine = true) :
    (parseCards jp (assemble (bs1 ++ (pre, c) :: bs2) t)).get? bs1.length =
        some (parseContent jp c, CARD_OPEN ++ c ++ CARD_CLOSE) ∧
      lookupField (parseContent jp c) "data".data = some (.json .emptyObj) := by
  constructor
  · have hmain := parseCardsAux_assemble jp (bs1 ++ (pre, c) :: bs2) t
      ((assemble (bs1 ++ (pre, c) :: bs2) t).length + 1) hwf (Nat.lt_succ_self _)
    rw [parseCards, hmain, List.get?_map,
      List.get?_append_right (Nat.le_refl bs1.length), Nat.sub_self]
    rfl
  · exact (foldl_processLine_data jp (blockLines c) [] hok).1 hdata

/-- Witness for claim C8 at a concrete one-block input whose data payload
does not parse. -/
theorem claim_C8_witness :
    lookupField (parseContent jsonParseNone "data: nope".data) "data".data =
      some (.json .emptyObj) :=
  (claim_C8 jsonParseNone [] "p ".data "data: nope".data [] []
    (by decide) (by decide) (by decide)).2

/-! ### Classifier -/

/-- Claim C3: classification returns exactly one of the four categories for
every input; a record whose type is transport or whose mode is one of
plane, car, bus, train is classified as transports with cardType the mode
when present and plane otherwise; mode train forces transports and cardType
train regardless of type; records matching none of the transport, hotel or
restaurant rules are classified as activities. -/
theorem claim_C3 (cardData : RawCard) :
    ((classifyCard cardData).1 = "transports".data ∨
      (classifyCard cardData).1 = "hotels".data ∨
      (classifyCard cardData).1 = "restaurants".data ∨
      (classifyCard cardData).1 = "activities".data) ∧
    ((jsOrEmpty cardData.type = "transport".data ∨
        jsOrEmpty cardData.mode = "plane".data ∨ jsOrEmpty cardData.mode = "car".data ∨
        jsOrEmpty cardData.mode = "bus".data ∨ jsOrEmpty cardData.mode = "train".data) →
      (classifyCard cardData).1 = "transports".data ∧
      (classifyCard cardData).2 =
        (if jsOrEmpty cardData.mode = [] then "plane".data else jsOrEmpty cardData.mode)) ∧
    (jsOrEmpty cardData.mode = "train".data →
      (classifyCard cardData).1 = "transports".data ∧
      (classifyCard cardData).2 = "train".data) ∧
    ((jsOrEmpty cardData.type ≠ "transport".data ∧ jsOrEmpty cardData.mode ≠ "plane".data ∧
      jsOrEmpty cardData.mode ≠ "car".data ∧ jsOrEmpty cardData.mode ≠ "bus".data ∧
      jsOrEmpty cardData.mode ≠ "train".data ∧ jsOrEmpty cardData.type ≠ "hotel".data ∧
      jsOrEmpty cardData.type ≠ "restaurant".data) →
      classifyCard cardData = ("activities".data, "activity".data)) := by
  simp only [classifyCard]
  by_cases h1 : jsOrEmpty cardData.type = "transport".data ∨
      jsOrEmpty cardData.mode = "plane".data ∨ jsOrEmpty cardData.mode = "car".data ∨
      jsOrEmpty cardData.mode = "bus".data ∨ jsOrEmpty cardData.mode = "train".data
  · rw [if_pos h1]
    refine ⟨Or.inl rfl, fun _ => ⟨rfl, rfl⟩, fun hm => ⟨rfl, ?_⟩, fun hno => ?_⟩
    · rw [hm, if_neg (by decide)]
    · obtain ⟨ht, hp, hc, hb, htr, _, _⟩ := hno
      rcases h1 with h | h | h | h | h
      · exact absurd h ht
      · exact absurd h hp
      · exact absurd h hc
      · exact absurd h hb
      · exact absurd h htr
  · rw [if_neg h1]
    have hnm : jsOrEmpty cardData.mode ≠ "train".data := by
      intro hm
      exact h1 (Or.inr (Or.inr (Or.inr (Or.inr hm))))
    by_cases h2 : jsOrEmpty cardData.type = "hotel".data
    · rw [if_pos h2]
      refine ⟨Or.inr (Or.inl rfl), fun hc => absurd hc h1, fun hm => absurd hm hnm,
        fun hno => ?_⟩
      exact absurd h2 hno.2.2.2.2.2.1
    · rw [if_neg h2]
      by_cases h3 : jsOrEmpty cardData.type = "restaurant".data
      · rw [if_pos h3]
        refine ⟨Or.inr (Or.inr (Or.inl rfl)), fun hc => absurd hc h1,
          fun hm => absurd hm hnm, fun hno => ?_⟩
        exact absurd h3 hno.2.2.2.2.2.2
      · rw [if_neg h3]
        exact ⟨Or.inr (Or.inr (Or.inr rfl)), fun hc => absurd hc h1,
          fun hm => absurd hm hnm, fun _ => rfl⟩

/-- Witness for claim C3: mode train with type hotel still classifies as
transports with cardType train. -/
theorem claim_C3_witness :
    (classifyCard { type := some "hotel".data, mode := some "train".data }).1 =
        "transports".data ∧
      (classifyCard { type := some "hotel".data, mode := some "train".data }).2 =
        "train".data :=
  (claim_C3 { type := some "hotel".data, mode := some "train".data }).2.2.1 (by decide)

/-! ### Chat race handling -/

/-- Claim C1: when a send-message completion arrives after the user has
switched chats (the open chat id differs from the captured target id), the
workflow leaves the visible transcript and the open chat untouched and
routes the assistant message to the captured chat: when the captured id is
found in the saved-chat store, the assistant message is appended to that
record and its updatedAt set to the completion time; when it is not found,
a record holding exactly the captured user message followed by the
assistant message is inserted. -/
theorem claim_C1 (st : ChatState) (targetChatId : List Char)
    (targetSessionId : Option (List Char)) (message botResponse : List Char) (now : Nat)
    (hdiff : st.currentChatId ≠ some targetChatId) :
    (handleChatResponse st targetChatId targetSessionId message botResponse now).chatHistory =
        st.chatHistory ∧
      (handleChatResponse st targetChatId targetSessionId message botResponse
          now).currentChatId = st.currentChatId ∧
      (∀ i, findIdxWith (fun (c : ChatRec) => decide (c.id = targetChatId)) st.savedChats =
          some i →
        (handleChatResponse st targetChatId targetSessionId message botResponse
            now).savedChats =
          modifyAt st.savedChats i (fun c =>
            { c with messages := c.messages ++ [⟨ASSISTANT_ROLE, botResponse⟩],
                     updatedAt := now })) ∧
      (findIdxWith (fun (c : ChatRec) => decide (c.id = targetChatId)) st.savedChats = none →
        (handleChatResponse st targetChatId targetSessionId message botResponse
            now).savedChats =
          ⟨targetChatId, generateChatTitle message,
            [⟨USER_ROLE, message⟩, ⟨ASSISTANT_ROLE, botResponse⟩], now, targetSessionId⟩ ::
            st.savedChats) := by
  rw [handleChatResponse, if_pos hdiff]
  cases hidx : findIdxWith (fun (c : ChatRec) => decide (c.id = targetChatId))
      st.savedChats with
  | none => simp [hidx]
  | some i =>
      simp only [hidx]
      refine ⟨trivial, trivial, fun j hj => ?_, fun hn => by cases hn⟩
      cases hj
      rfl

/-- Witness for claim C1 at a concrete state where the user switched from
the captured chat to another chat before the completion. -/
theorem claim_C1_witness :
    (handleChatResponse
        { savedChats := [⟨"a".data, "A".data, [], 1, none⟩],
          currentChatId := some "b".data, chatSessionId := some "b".data,
          chatHistory := [⟨USER_ROLE, "hi".data⟩] }
        "a".data (some "a".data) "hello".data "reply".data 5).savedChats =
      [⟨"a".data, "A".data, [⟨ASSISTANT_ROLE, "reply".data⟩], 5, none⟩] := by
  have h := claim_C1
    { savedChats := [⟨"a".data, "A".data, [], 1, none⟩],
      currentChatId := some "b".data, chatSessionId := some "b".data,
      chatHistory := [⟨USER_ROLE, "hi".data⟩] }
    "a".data (some "a".data) "hello".data "reply".data 5 (by decide)
  rw [h.2.2.1 0 (by decide)]
  decide

/-! ### Deleting the active chat -/

/-- Counterexample to claim C7 as stated: in a reachable store (chat b was
saved before chat a and later updated in place, so it carries the greatest
updatedAt while sitting behind a), deleting the active chat c activates the
first stored chat a, not the most recently updated remaining chat b. -/
theorem claim_C7_counterexample :
    ((deleteChat
        { savedChats :=
            [⟨"c".data, "C".data, [], 7, none⟩,
             ⟨"a".data, "A".data, [], 1, none⟩,
             ⟨"b".data, "B".data, [], 5, none⟩],
          currentChatId := some "c".data, chatSessionId := some "c".data,
          chatHistory := [⟨USER_ROLE, "m".data⟩] } "c".data).savedChats.map
        (fun c => (c.id, c.updatedAt)) = [("a".data, 1), ("b".data, 5)]) ∧
      (deleteChat
        { savedChats :=
            [⟨"c".data, "C".data, [], 7, none⟩,
             ⟨"a".data, "A".data, [], 1, none⟩,
             ⟨"b".data, "B".data, [], 5, none⟩],
          currentChatId := some "c".data, chatSessionId := some "c".data,
          chatHistory := [⟨USER_ROLE, "m".data⟩] } "c".data).currentChatId =
        some "a".data ∧
      ("a".data : List Char) ≠ "b".data := by
  decide

/-- Claim C7 (amended): deleting the currently active chat when other chats
remain makes the first remaining chat in stored order the active chat
(stored order keeps the most recently inserted chat first; an in-place
update does not move a chat, so this is not necessarily the most recently
updated one); deleting the last remaining chat leaves the store empty with
no active chat, and a subsequent new-chat action creates a fresh unsaved
draft chat with zero messages. -/
theorem claim_C7_amended (st : ChatState) (cid : List Char)
    (hcur : st.currentChatId = some cid) :
    (∀ first rest,
        st.savedChats.filter (fun c => !(decide (c.id = cid))) = first :: rest →
        (deleteChat st cid).savedChats = first :: rest ∧
          (deleteChat st cid).currentChatId = some first.id ∧
          (deleteChat st cid).chatHistory = first.messages) ∧
      (st.savedChats.filter (fun c => !(decide (c.id = cid))) = [] →
        (deleteChat st cid).savedChats = [] ∧
          (deleteChat st cid).currentChatId = none ∧
          (∀ freshId now,
            startNewChat (deleteChat st cid) freshId now =
              { savedChats := [], currentChatId := some freshId,
                chatSessionId := some freshId, chatHistory := [] })) := by
  constructor
  · intro first rest hf
    simp only [deleteChat, if_pos hcur, hf]
    simp [loadChat, findWith]
  · intro hf
    simp only [deleteChat, if_pos hcur, hf]
    exact ⟨trivial, trivial, fun freshId now => by simp [startNewChat]⟩

/-- Witness for the amended claim C7 at a concrete two-chat store. -/
theorem claim_C7_amended_witness :
    (deleteChat
        { savedChats := [⟨"x".data, "X".data, [], 4, none⟩, ⟨"y".data, "Y".data, [], 2, none⟩],
          currentChatId := some "x".data, chatSessionId := some "x".data,
          chatHistory := [⟨USER_ROLE, "m".data⟩] } "x".data).currentChatId =
      some "y".data := by
  have h := claim_C7_amended
    { savedChats := [⟨"x".data, "X".data, [], 4, none⟩, ⟨"y".data, "Y".data, [], 2, none⟩],
      currentChatId := some "x".data, chatSessionId := some "x".data,
      chatHistory := [⟨USER_ROLE, "m".data⟩] } "x".data (by decide)
  exact (h.1 ⟨"y".data, "Y".data, [], 2, none⟩ [] (by decide)).2.1

/-! ### Chat title derivation and preservation -/

/-- Claim C9: on the first save of a chat (its id is not yet stored), the
persisted title is derived from the first message of the transcript (the
first user message in the send workflow, which pushes the user message
before the first save) by trimming and cutting to 30 characters with an
ellipsis; on every later save of the same chat the existing stored title is
kept unchanged. -/
theorem claim_C9 (st : ChatState) (cid : List Char) (now : Nat)
    (hcur : st.currentChatId = some cid) :
    (∀ m hrest, st.chatHistory = m :: hrest → m.role = USER_ROLE →
        findIdxWith (fun (c : ChatRec) => decide (c.id = cid)) st.savedChats = none →
        (saveCurrentChat st now).savedChats =
          ⟨cid, generateChatTitle (if m.content = [] then NEW_CHAT_TITLE else m.content),
            st.chatHistory, now, st.chatSessionId⟩ :: st.savedChats) ∧
      (∀ i old, st.chatHistory ≠ [] →
        findIdxWith (fun (c : ChatRec) => decide (c.id = cid)) st.savedChats = some i →
        st.savedChats.get? i = some old →
        (saveCurrentChat st now).savedChats =
          st.savedChats.set i ⟨cid, old.title, st.chatHistory, now, st.chatSessionId⟩) ∧
      (∀ s, generateChatTitle s =
        (if 30 < (jsTrim s).length then (jsTrim s).take 30 ++ "...".data
          else if jsTrim s = [] then NEW_CHAT_TITLE else jsTrim s)) := by
  refine ⟨?_, ?_, ?_⟩
  · intro m hrest hh _ hidx
    rw [saveCurrentChat]
    simp only [hcur, hh, hidx]
    simp
  · intro i old hne hidx hget
    rw [saveCurrentChat]
    simp only [hcur, hidx, hget, if_neg hne]
  · intro s
    rw [generateChatTitle]
    by_cases h30 : 30 < (jsTrim s).length
    · rw [if_pos h30, if_pos h30, if_neg (by simp)]
    · rw [if_neg h30, if_neg h30]

/-- Witness for claim C9 at a concrete first save. -/
theorem claim_C9_witness :
    (saveCurrentChat
        { savedChats := [], currentChatId := some "k".data, chatSessionId := none,
          chatHistory := [⟨USER_ROLE, "hello".data⟩] } 3).savedChats =
      [⟨"k".data, "hello".data, [⟨USER_ROLE, "hello".data⟩], 3, none⟩] := by
  have h := (claim_C9
    { savedChats := [], currentChatId := some "k".data, chatSessionId := none,
      chatHistory := [⟨USER_ROLE, "hello".data⟩] } "k".data 3 rfl).1
    ⟨USER_ROLE, "hello".data⟩ [] rfl rfl (by decide)
  rw [h]
  decide

/-! ### Legacy migration -/

theorem migrateCards_ne_nil_fields {old : LegacyDoc} (h : migrateCards old ≠ []) :
    (old.transports.isSome || old.hotels.isSome ||
      old.restaurants.isSome || old.activitys.isSome) = true := by
  by_contra hfields
  apply h
  have ht : old.transports = none := by
    cases h1 : old.transports
    · rfl
    · exact absurd (by simp [h1]) hfields
  have hh : old.hotels = none := by
    cases h1 : old.hotels
    · rfl
    · exact absurd (by simp [h1]) hfields
  have hr : old.restaurants = none := by
    cases h1 : old.restaurants
    · rfl
    · exact absurd (by simp [h1]) hfields
  have ha : old.activitys = none := by
    cases h1 : old.activitys
    · rfl
    · exact absurd (by simp [h1]) hfields
  rw [migrateCards, ht, hh, hr, ha]
  rfl

/-- Claim C4: the legacy migration at note-store initialization never
touches the legacy document, runs only when the new-format store is empty,
produces a single note titled My Travel Items whose cards are the legacy
items tagged with their categories when the legacy document yields at least
one item, produces nothing when it yields none, and a second initialization
against the resulting storage changes nothing (idempotence). -/
theorem claim_C4 (storage : NoteStorage) (freshId : List Char) (now : Nat) :
    ((loadNotes storage freshId now).2.travel_note_legacy = storage.travel_note_legacy) ∧
      (∀ l, storage.travel_notes = some l → l ≠ [] →
        loadNotes storage freshId now = (l, storage)) ∧
      (∀ old, storage.travel_notes.getD [] = [] → storage.travel_note_legacy = some old →
        migrateCards old ≠ [] →
        loadNotes storage freshId now =
          ([⟨freshId, "My Travel Items".data, [], migrateCards old, now, now⟩],
            { storage with
              travel_notes :=
                some [⟨freshId, "My Travel Items".data, [], migrateCards old, now, now⟩] })) ∧
      (∀ old, storage.travel_note_legacy = some old → migrateCards old = [] →
        loadNotes storage freshId now = (storage.travel_notes.getD [], storage)) ∧
      (∀ freshId2 now2,
        loadNotes (loadNotes storage freshId now).2 freshId2 now2 =
          ((loadNotes storage freshId now).1, (loadNotes storage freshId now).2)) := by
  refine ⟨?_, ?_, ?_, ?_, ?_⟩
  · rw [loadNotes]
    cases hleg : storage.travel_note_legacy with
    | none => simp [hleg]
    | some old =>
        by_cases h0 : (storage.travel_notes.getD []).length = 0
        · by_cases hfields : (old.transports.isSome || old.hotels.isSome ||
              old.restaurants.isSome || old.activitys.isSome) = true
          · by_cases hcards : 0 < (migrateCards old).length
            · simp [h0, hfields, hcards, hleg]
            · simp [h0, hfields, hcards, hleg]
          · simp [h0, hfields, hleg]
        · simp [h0, hleg]
  · intro l hl hne
    rw [loadNotes]
    cases hleg : storage.travel_note_legacy with
    | none => simp [hl]
    | some old => simp [hl, hne, hleg]
  · intro old h0 hleg hne
    have hfields := migrateCards_ne_nil_fields hne
    have hcards : 0 < (migrateCards old).length := List.length_pos.mpr hne
    rw [loadNotes]
    simp [hleg, h0, hfields, hcards]
  · intro old hleg hzero
    rw [loadNotes]
    by_cases h0 : (storage.travel_notes.getD []).length = 0
    · simp [hleg, h0, hzero]
    · simp [hleg, h0]
  · intro freshId2 now2
    cases hleg : storage.travel_note_legacy with
    | none =>
        have h1 : loadNotes storage freshId now = (storage.travel_notes.getD [], storage) := by
          rw [loadNotes, hleg]
        rw [h1, loadNotes, hleg]
    | some old =>
        by_cases h0 : (storage.travel_notes.getD []).length = 0
        · by_cases hfields : (old.transports.isSome || old.hotels.isSome ||
              old.restaurants.isSome || old.activitys.isSome) = true
          · by_cases hcards : 0 < (migrateCards old).length
            · have htn : storage.travel_notes.getD [] = [] := List.length_eq_zero.mp h0
              have h1 : loadNotes storage freshId now =
                  ([⟨freshId, "My Travel Items".data, [], migrateCards old, now, now⟩],
                    { storage with
                      travel_notes :=
                        some [⟨freshId, "My Travel Items".data, [],
                          migrateCards old, now, now⟩] }) := by
                rw [loadNotes]
                simp [hleg, htn, hfields, hcards]
              rw [h1, loadNotes]
              simp [hleg]
            · have h1 : loadNotes storage freshId now =
                  (storage.travel_notes.getD [], storage) := by
                rw [loadNotes]
                simp [hleg, h0, hfields, hcards]
              rw [h1, loadNotes]
              simp [hleg, h0, hfields, hcards]
          · have h1 : loadNotes storage freshId now =
                (storage.travel_notes.getD [], storage) := by
              rw [loadNotes]
              simp [hleg, h0, hfields]
            rw [h1, loadNotes]
            simp [hleg, h0, hfields]
        · have h1 : loadNotes storage freshId now =
              (storage.travel_notes.getD [], storage) := by
            rw [loadNotes]
            simp [hleg, h0]
          rw [h1, loadNotes]
          simp [hleg, h0]

/-- Witness for claim C4: a concrete migration of a legacy document with one
transport item into a single tagged note. -/
theorem claim_C4_witness :
    loadNotes
        { travel_notes := none,
          travel_note_legacy := some
            { transports := some [⟨"t1".data⟩], hotels := none,
              restaurants := none, activitys := some [] } } "mig".data 9 =
      ([⟨"mig".data, "My Travel Items".data, [],
          [⟨⟨"t1".data⟩, "transports".data⟩], 9, 9⟩],
        { travel_notes := some [⟨"mig".data, "My Travel Items".data, [],
            [⟨⟨"t1".data⟩, "transports".data⟩], 9, 9⟩],
          travel_note_legacy := some
            { transports := some [⟨"t1".data⟩], hotels := none,
              restaurants := none, activitys := some [] } }) := by
  have h := (claim_C4
    { travel_notes := none,
      travel_note_legacy := some
        { transports := some [⟨"t1".data⟩], hotels := none,
          restaurants := none, activitys := some [] } } "mig".data 9).2.2.1
    { transports := some [⟨"t1".data⟩], hotels := none,
      restaurants := none, activitys := some [] } rfl rfl (by decide)
  rw [h]
  decide

/-! ### Auto-save debounce -/

theorem editorInv_step (st : EditorState) (hInv : EditorInv st) (ev : EditorEvent) :
    EditorInv (stepEditor st ev) := by
  cases ev with
  | edit c =>
      right
      refine ⟨st.nextTimerId, ?_, rfl⟩
      show (match st.autoSaveTimer with
            | some t => st.timers.erase t
            | none => st.timers) ++ [st.nextTimerId] = [st.nextTimerId]
      rcases hInv with h | ⟨t, ht, ha⟩
      · cases hA : st.autoSaveTimer <;> simp [h]
      · rw [ha, ht]
        simp
  | blurEvent => exact hInv
  | timerFire t =>
      by_cases hmem : t ∈ st.timers
      · rw [stepEditor, if_pos hmem]
        rcases hInv with h | ⟨u, hu, ha⟩
        · rw [h] at hmem
          cases hmem
        · left
          show st.timers.erase t = []
          rw [hu] at hmem ⊢
          have : t = u := List.mem_singleton.mp hmem
          rw [this]
          simp
      · rw [stepEditor, if_neg hmem]
        exact hInv

theorem editorInv_run (st : EditorState) (hInv : EditorInv st) :
    ∀ evs, EditorInv (runEditor st evs) := by
  intro evs
  induction evs generalizing st with
  | nil => exact hInv
  | cons e es ih => exact ih (stepEditor st e) (editorInv_step st hInv e)

theorem editor_first_edit (st : EditorState) (hInv : EditorInv st) (c1 : List Char) :
    stepEditor st (.edit c1) =
      { timers := [st.nextTimerId], autoSaveTimer := some st.nextTimerId,
        nextTimerId := st.nextTimerId + 1, content := c1, saves := st.saves } := by
  show scheduleAutoSave { st with content := c1 } = _
  rw [scheduleAutoSave]
  rcases hInv with h | ⟨t, ht, ha⟩
  · cases hA : st.autoSaveTimer <;> simp [h, hA]
  · simp [ht, ha]

/-- Counterexample to claim C5 as stated: from a fresh editor state, one
edit followed by a blur leaves the scheduled debounced save pending (the
blur handler only calls saveCurrentNote and never clears the timeout), and
when that timeout then fires the same content is persisted a second time —
blur does not collapse the pending debounced save. -/
theorem claim_C5_counterexample :
    (runEditor ⟨[], none, 0, "a".data, []⟩
        [.edit "b".data, .blurEvent]).timers = [0] ∧
      (runEditor ⟨[], none, 0, "a".data, []⟩
          [.edit "b".data, .blurEvent, .timerFire 0]).saves =
        ["b".data, "b".data] := by
  constructor
  · rfl
  · rfl

/-- Claim C5 (amended): scheduling a new save cancels any previously
scheduled pending save, so at most one save is pending at any time, and a
burst of edits within one debounce window results in exactly one debounced
persisted save reflecting the final content; a blur event forces an
immediate save of the current content but does not cancel a pending
debounced save — the pending timeout survives the blur and produces an
additional save when it fires. -/
theorem claim_C5_amended (st : EditorState) (hInv : EditorInv st) :
    (∀ evs, EditorInv (runEditor st evs) ∧ (runEditor st evs).timers.length ≤ 1) ∧
      (∀ c1 c2 c3,
        (runEditor st [.edit c1, .edit c2, .edit c3,
            .timerFire (st.nextTimerId + 2)]).saves = st.saves ++ [c3]) ∧
      ((stepEditor st .blurEvent).saves = st.saves ++ [st.content] ∧
        (stepEditor st .blurEvent).timers = st.timers ∧
        (stepEditor st .blurEvent).autoSaveTimer = st.autoSaveTimer) := by
  refine ⟨?_, ?_, rfl, rfl, rfl⟩
  · intro evs
    have h := editorInv_run st hInv evs
    refine ⟨h, ?_⟩
    rcases h with h | ⟨t, ht, _⟩
    · rw [h]
      exact Nat.zero_le 1
    · rw [ht]
      exact Nat.le_refl 1
  · intro c1 c2 c3
    have h1 := editor_first_edit st hInv c1
    show (runEditor (stepEditor st (.edit c1))
        [.edit c2, .edit c3, .timerFire (st.nextTimerId + 2)]).saves = st.saves ++ [c3]
    rw [h1]
    simp [runEditor, stepEditor, scheduleAutoSave, saveNoteNow]

/-- Witness for the amended claim C5: a three-edit burst from a fresh state
persists exactly one save holding the final content. -/
theorem claim_C5_amended_witness :
    (runEditor ⟨[], none, 0, [], []⟩
        [.edit "x".data, .edit "y".data, .edit "z".data, .timerFire (0 + 2)]).saves =
      [] ++ ["z".data] :=
  (claim_C5_amended ⟨[], none, 0, [], []⟩ (Or.inl rfl)).2.1 "x".data "y".data "z".data

/-! ### Itinerary save -/

theorem collectDaysFrom_length :
    ∀ (dayCards : List DayCardInput) (k : Nat),
      (collectDaysFrom k dayCards).length = dayCards.length := by
  intro dayCards
  induction dayCards with
  | nil => intro k; rfl
  | cons card rest ih =>
      intro k
      rw [collectDaysFrom, List.length_cons, List.length_cons, ih]

theorem collectDaysFrom_get :
    ∀ (dayCards : List DayCardInput) (k j : Nat),
      (collectDaysFrom k dayCards).get? j =
        (dayCards.get? j).map (fun card =>
          ⟨k + j + 1, dayActivities card, card.dayNotes⟩) := by
  intro dayCards
  induction dayCards with
  | nil => intro k j; rfl
  | cons card rest ih =>
      intro k j
      cases j with
      | zero => rfl
      | succ j =>
          show (collectDaysFrom (k + 1) rest).get? j =
            (rest.get? j).map (fun card =>
              ⟨k + (j + 1) + 1, dayActivities card, card.dayNotes⟩)
          rw [ih (k + 1) j]
          have harith : k + 1 + j + 1 = k + (j + 1) + 1 := by omega
          simp only [harith]

/-- Claim C6: the persisted days list is rebuilt from the current editor
state on every save: day k of the saved document carries dayNumber k
(1-based positional numbering over the day cards in their current order,
never a stored number), its activities are exactly the non-empty trimmed
activity input values of that day card, and the document replaces the
stored itinerary with the same id in place or is appended when the id is
new. -/
theorem claim_C6 (itineraries : List Itinerary) (currentItineraryId : List Char)
    (form : ItinForm) (dayCards : List DayCardInput) :
    ((collectDays dayCards).length = dayCards.length) ∧
      (∀ k, (collectDays dayCards).get? k =
        (dayCards.get? k).map (fun card =>
          ⟨k + 1, dayActivities card, card.dayNotes⟩)) ∧
      (∀ i, findIdxWith (fun (x : Itinerary) => decide (x.id = currentItineraryId))
          itineraries = some i →
        saveItinerary itineraries currentItineraryId form dayCards =
          itineraries.set i ⟨currentItineraryId, form.origin, form.destination,
            form.startDate, form.endDate, form.budget, form.notes, collectDays dayCards⟩) ∧
      (findIdxWith (fun (x : Itinerary) => decide (x.id = currentItineraryId))
          itineraries = none →
        saveItinerary itineraries currentItineraryId form dayCards =
          itineraries ++ [⟨currentItineraryId, form.origin, form.destination,
            form.startDate, form.endDate, form.budget, form.notes, collectDays dayCards⟩]) := by
  refine ⟨collectDaysFrom_length dayCards 0, ?_, ?_, ?_⟩
  · intro k
    rw [collectDays, collectDaysFrom_get dayCards 0 k]
    simp only [Nat.zero_add]
  · intro i hidx
    rw [saveItinerary]
    simp only [hidx]
  · intro hidx
    rw [saveItinerary]
    simp only [hidx]

/-- Witness for claim C6: removing the middle day of a three-day itinerary
before saving persists days renumbered 1 and 2 with the contents of the
former days 1 and 3. -/
theorem claim_C6_witness :
    saveItinerary
        [⟨"i".data, "o".data, "d".data, "s".data, "e".data, "b".data, "n".data,
          [⟨1, ["a1".data], "x1".data⟩, ⟨2, ["a2".data], "x2".data⟩,
            ⟨3, ["a3".data], "x3".data⟩]⟩]
        "i".data ⟨"o".data, "d".data, "s".data, "e".data, "b".data, "n".data⟩
        [⟨[" a1 ".data, "".data], "x1".data⟩, ⟨["a3".data], "x3".data⟩] =
      [⟨"i".data, "o".data, "d".data, "s".data, "e".data, "b".data, "n".data,
        [⟨1, ["a1".data], "x1".data⟩, ⟨2, ["a3".data], "x3".data⟩]⟩] := by
  have h := (claim_C6
    [⟨"i".data, "o".data, "d".data, "s".data, "e".data, "b".data, "n".data,
      [⟨1, ["a1".data], "x1".data⟩, ⟨2, ["a2".data], "x2".data⟩,
        ⟨3, ["a3".data], "x3".data⟩]⟩]
    "i".data ⟨"o".data, "d".data, "s".data, "e".data, "b".data, "n".data⟩
    [⟨[" a1 ".data, "".data], "x1".data⟩, ⟨["a3".data], "x3".data⟩]).2.2.1 0 (by decide)
  rw [h]
  decide

/-! ### Adding a card with a stale active note id -/

theorem cardsLists_modifyAt (ns : List (TNote NoteCard)) (i : Nat) (item : NoteCard)
    (now : Nat) :
    cardsLists (modifyAt ns i (fun n =>
        { n with cards := n.cards ++ [item], updatedAt := now })) =
      modifyAt (cardsLists ns) i (fun cs => cs ++ [item]) := by
  induction ns generalizing i with
  | nil => cases i <;> rfl
  | cons n ns ih =>
      cases i with
      | zero => rfl
      | succ i =>
          show n.cards :: cardsLists (modifyAt ns i _) =
            n.cards :: modifyAt (cardsLists ns) i _
          rw [ih i]

/-- Claim C10: adding a card while the active-note id is set but matches no
stored note, with at least one note present, creates no new note and does
not fail: the classified card is appended to the first stored note, that
note's updatedAt is set, and the store is persisted; moreover, whatever the
active-note id is, an add-card call on this store makes exactly one note
gain exactly one card (either an existing note gains the card or a single
new note holding only that card is inserted). -/
theorem claim_C10 (st : TNState) (cardData : RawCard)
    (freshCardId freshNoteId : List Char) (now : Nat)
    (n0 : TNote NoteCard) (rest : List (TNote NoteCard)) (aid : List Char)
    (hnotes : st.travelNotes = n0 :: rest)
    (hactive : st.activeNoteId = some aid)
    (hstale : findIdxWith (fun (n : TNote NoteCard) => decide (n.id = aid))
        (n0 :: rest) = none) :
    ((addCardToTravelNote st cardData freshCardId freshNoteId now).1.travelNotes =
        { n0 with cards := n0.cards ++ [mkCardItem cardData freshCardId now],
                  updatedAt := now } :: rest) ∧
      ((addCardToTravelNote st cardData freshCardId freshNoteId now).1.activeNoteId =
        st.activeNoteId) ∧
      ((addCardToTravelNote st cardData freshCardId freshNoteId now).2 = true) ∧
      ((addCardToTravelNote st cardData freshCardId freshNoteId now).1.travelNotes.length =
        st.travelNotes.length) ∧
      (∀ act2, ∃ j,
        cardsLists (addCardToTravelNote { st with activeNoteId := act2 } cardData
            freshCardId freshNoteId now).1.travelNotes =
          modifyAt (cardsLists (n0 :: rest)) j
            (fun cs => cs ++ [mkCardItem cardData freshCardId now]) ∨
        cardsLists (addCardToTravelNote { st with activeNoteId := act2 } cardData
            freshCardId freshNoteId now).1.travelNotes =
          [mkCardItem cardData freshCardId now] :: cardsLists (n0 :: rest)) := by
  refine ⟨?_, ?_, ?_, ?_, ?_⟩
  · simp only [addCardToTravelNote, hnotes, hactive, hstale]
  · simp only [addCardToTravelNote, hnotes, hactive, hstale]
  · simp only [addCardToTravelNote, hnotes, hactive, hstale]
  · simp only [addCardToTravelNote, hnotes, hactive, hstale]
    rfl
  · intro act2
    cases act2 with
    | none =>
        refine ⟨0, Or.inr ?_⟩
        simp only [addCardToTravelNote, hnotes, createNewNote, cardsLists]
        rfl
    | some a2 =>
        cases hidx : findIdxWith (fun (n : TNote NoteCard) => decide (n.id = a2))
            (n0 :: rest) with
        | some i =>
            refine ⟨i, Or.inl ?_⟩
            simp only [addCardToTravelNote, hnotes, hidx]
            exact cardsLists_modifyAt (n0 :: rest) i _ now
        | none =>
            refine ⟨0, Or.inl ?_⟩
            simp only [addCardToTravelNote, hnotes, hidx]
            rfl

/-- Witness for claim C10: a stale active id on a one-note store appends the
classified card to that first note. -/
theorem claim_C10_witness :
    (addCardToTravelNote
        { travelNotes := [⟨"n1".data, "T".data, [], [], 0, 0⟩],
          activeNoteId := some "ghost".data }
        { type := some "hotel".data } "c1".data "nn".data 4).1.travelNotes =
      [⟨"n1".data, "T".data, [],
        [mkCardItem { type := some "hotel".data } "c1".data 4], 0, 4⟩] := by
  have h := claim_C10
    { travelNotes := [⟨"n1".data, "T".data, [], [], 0, 0⟩],
      activeNoteId := some "ghost".data }
    { type := some "hotel".data } "c1".data "nn".data 4
    ⟨"n1".data, "T".data, [], [], 0, 0⟩ [] "ghost".data rfl rfl (by decide)
  rw [h.1]
  rfl
